import Mathlib

/-!
Verification development for the HumanEval-to-Go translator
(`src/humaneval_to_go.py`): a shallow embedding of its type mapper
(`translate_type`), literal mapper (`gen_literal`, `gen_list`, `gen_dict`,
`pytype_to_gotype` and friends) and prompt assembler (`translate_prompt`),
together with theorems settling the specified properties.
-/

namespace HumanEvalGo

/-! ## Python runtime model

The translator inspects Python runtime types with `type(...) == ...`
comparisons.  We model the classes that occur in those comparisons, plus the
two non-class objects that appear on the right-hand side of an `==` in the
source: the generic alias `List[int]` (compared in `pytype_to_gotype`) and
the object `None` (compared in `gen_literal`).  Under Python `==`, a class is
never equal to the alias or to `None`, which the constructor distinction
makes definitional here. -/

/-- Python classes appearing in the translator's type tests. -/
inductive PyClass where
  | int
  | bool
  | str
  | float
  | list
  | dict
  | noneType
  | tuple
deriving DecidableEq

/-- Objects compared with `==` in the source's type tests: classes (what
`type(x)` returns), the generic alias `typing.List[int]`, and the object
`None` (the right-hand side of `type(c) == None` in `gen_literal`). -/
inductive PyTypeObj where
  | cls (c : PyClass)
  | listInt
  | noneObj
deriving DecidableEq

/-- Scalar Python values: the domain of `gen_literal`
(`c: bool | str | int | float | None` in the source).  Python floats are
abstracted by the text of their literal (no claim depends on float
formatting). -/
inductive PyScalar where
  | bool (b : Bool)
  | str (s : String)
  | int (n : Int)
  | float (txt : String)
  | none
deriving DecidableEq

/-- Python `type(c)` for a scalar value: always a class, never `None` or a
generic alias. -/
def type_ : PyScalar → PyTypeObj
  | .bool _ => .cls .bool
  | .str _ => .cls .str
  | .int _ => .cls .int
  | .float _ => .cls .float
  | .none => .cls .noneType

/-- Python `type(x)` for `x` a `str`.  The composite generators `gen_list`
and `gen_dict` receive already-rendered fragments (their parameters are
annotated `List[str]` in the source, and `", ".join` requires `str`
elements), so the `type(l[0])` they compute is always the class `str`. -/
def typeOfStr (_ : String) : PyTypeObj := .cls .str

/-- Python `str(c)` for a scalar. -/
def pyStr : PyScalar → String
  | .bool b => if b then "True" else "False"
  | .str s => s
  | .int n => toString n
  | .float txt => txt
  | .none => "None"

/-- Python `repr(c)` for a scalar.  The `bool` and `str` cases are
unreachable from `gen_literal` (both are intercepted by earlier branches);
`repr` of a `str` is abstracted without escape processing. -/
def pyRepr : PyScalar → String
  | .bool b => if b then "True" else "False"
  | .str s => "'" ++ s ++ "'"
  | .int n => toString n
  | .float txt => txt
  | .none => "None"

/-- Python `.lower()` restricted to ASCII, as applied to `str(True)` and
`str(False)`. -/
def pyLower (s : String) : String := ⟨s.data.map Char.toLower⟩

/-! ## GoTranslator: literal mapper

State of one `GoTranslator` instance.  `prev_comp_types` is the
book-keeping list for typing empty composite literals; `diagnostics`
collects the `print(...)` calls issued by the generators;
`is_candidate_result` is the flag set by `gen_call`.  (The `file_ext` and
`self.type` fields of the source class are configuration and unused
book-keeping, not consulted by any generator.) -/
structure TState where
  prev_comp_types : List String
  diagnostics : List String
  is_candidate_result : Bool
deriving DecidableEq

/-- The state of a freshly constructed `GoTranslator` (`__init__`). -/
def initState : TState := ⟨[], [], false⟩

/-- Embedding of `GoTranslator.pytype_to_gotype`: the chain of `==` tests
against `int`, `bool`, `str`, `float` and `typing.List[int]`, with the
`"UNKNOWN"` fallthrough.  (The source also prints `"UNKNOWN"` before
returning it; the print is a side effect not consulted by any claim.) -/
def pytype_to_gotype (pytype : PyTypeObj) : String :=
  if pytype = .cls .int then "int"
  else if pytype = .cls .bool then "bool"
  else if pytype = .cls .str then "string"
  else if pytype = .cls .float then "float64"
  else if pytype = .listInt then "[]int"
  else "UNKNOWN"

/-- Embedding of `GoTranslator.gen_literal`.  Note the source's third test
is `type(c) == None`, comparing a class with the object `None`: it is
modelled verbatim (and is never true, since `type_` never returns
`.noneObj`). -/
def gen_literal (c : PyScalar) : String :=
  if type_ c = .cls .bool then pyLower (pyStr c)
  else if type_ c = .cls .str then "\"" ++ pyStr c ++ "\""
  else if type_ c = .noneObj then "nil"
  else pyRepr c

/-- Embedding of `GoTranslator.gen_unaryop`. -/
def gen_unaryop (op : String) (v : String) : String := op ++ v

/-- Embedding of `GoTranslator.gen_var`. -/
def gen_var (v : String) : String := v

/-- Embedding of `GoTranslator.gen_list`.  The input is the list of
already-rendered element fragments (`l: List[str]` in the source).  The
element-type choice mirrors the source's three-way branch, the conditional
recording into `prev_comp_types` mirrors `if len(self.prev_comp_types) < 1`,
and the rendering is `"[]" + elem_type + "\x7b" + ", ".join(l) + "\x7d"`. -/
def gen_list (l : List String) (st : TState) : String × TState :=
  let pick : String × TState :=
    if l.length = 0 ∧ 1 ≤ st.prev_comp_types.length then
      (st.prev_comp_types.getD 0 "", st)
    else if l.length = 0 then
      ("int", { st with diagnostics := st.diagnostics ++ ["bad list, empty"] })
    else
      (pytype_to_gotype (typeOfStr (l.getD 0 "")), st)
  let st2 :=
    if pick.2.prev_comp_types.length < 1 then
      { pick.2 with prev_comp_types := [pick.1] }
    else pick.2
  ("[]" ++ pick.1 ++ "\x7b" ++ String.intercalate ", " l ++ "\x7d", st2)

/-- Embedding of `GoTranslator.gen_tuple`: always raises
`"Tuple unsupported"`. -/
def gen_tuple (_t : List String) : Except String String :=
  .error "Tuple unsupported"

/-- Embedding of `GoTranslator.gen_dict`.  Inputs are the rendered key and
value fragments (`keys: List[str], values: List[str]` in the source).  The
key/value-type choice mirrors the source's three-way branch, the recording
mirrors `if len(self.prev_comp_types) < 2`, and the rendering is
`"map[" + keys_type + "]" + values_type + "\x7b" + joined pairs + "\x7d"`. -/
def gen_dict (keys : List String) (values : List String) (st : TState) :
    String × TState :=
  let pick : (String × String) × TState :=
    if (keys.length = 0 ∨ values.length = 0) ∧ 2 ≤ st.prev_comp_types.length then
      ((st.prev_comp_types.getD 0 "", st.prev_comp_types.getD 1 ""), st)
    else if keys.length = 0 ∨ values.length = 0 then
      (("string", "int"),
        { st with diagnostics := st.diagnostics ++ ["bad dict, empty"] })
    else
      ((pytype_to_gotype (typeOfStr (keys.getD 0 "")),
        pytype_to_gotype (typeOfStr (values.getD 0 ""))), st)
  let st2 :=
    if pick.2.prev_comp_types.length < 2 then
      { pick.2 with prev_comp_types := [pick.1.1, pick.1.2] }
    else pick.2
  ("map[" ++ pick.1.1 ++ "]" ++ pick.1.2 ++ "\x7b" ++
      String.intercalate ", "
        ((keys.zip values).map (fun kv => kv.1 ++ ": " ++ kv.2)) ++ "\x7d",
    st2)

/-- Embedding of `GoTranslator.gen_call`. -/
def gen_call (func : String) (args : List String) (st : TState) :
    String × TState :=
  let st2 := if func = "candidate" then { st with is_candidate_result := true } else st
  (func ++ "(" ++ String.intercalate ", " args ++ ")", st2)

/-! ## Traces of composite-literal translations

A problem's test-case translation invokes `gen_list`/`gen_dict` some number
of times against one shared `GoTranslator` state, in test-case order.  A
trace of such invocations is a list of operations threaded through the
state. -/

/-- One composite-literal translation step: a `gen_list` call on rendered
element fragments, or a `gen_dict` call on rendered key/value fragments. -/
inductive LitOp where
  | lst (l : List String)
  | dct (keys values : List String)

/-- Running a single composite-literal step. -/
def runOp : LitOp → TState → String × TState
  | .lst l, st => gen_list l st
  | .dct ks vs, st => gen_dict ks vs st

/-- Running a trace of composite-literal steps in order, collecting the
rendered literals. -/
def runOps : List LitOp → TState → List String × TState
  | [], st => ([], st)
  | op :: ops, st =>
    let r := runOp op st
    let rs := runOps ops r.2
    (r.1 :: rs.1, rs.2)

/-! ## Type mapper

`translate_type` pattern-matches over Python `ast` annotation nodes.  The
domain below covers the shapes the source's `match` distinguishes:
`ast.Subscript`, `ast.Name`, `ast.Tuple` (as a `Dict` slice), the absent
annotation `None`, `ast.Constant(Ellipsis)`, plain `str` values (the
source's `Dict` branch recursively calls `translate_type` on the *id
string* of each `ast.Name` in the slice), and a catch-all for any other
object. -/

/-- Python objects fed to `translate_type`: annotation AST nodes, `None`,
or a bare string (from the `Dict` branch's recursion). -/
inductive TyObj where
  | name (id : String)
  | subscript (value : TyObj) (slice : TyObj)
  | tup (elts : List TyObj)
  | strLit (s : String)
  | noneA
  | ellipsisC
  | other

/-- Python f-string rendering of a `TyObj`, as used in the source's error
messages (`f"Bad dict: {slice}"` etc.).  A `str` formats as itself; CPython
renders `ast` nodes as `<ast.X object at 0x...>` with a memory address,
which is abstracted to an address-free tag (no claim depends on these
messages). -/
def pyFormat : TyObj → String
  | .name _ => "<ast.Name object>"
  | .subscript _ _ => "<ast.Subscript object>"
  | .tup _ => "<ast.Tuple object>"
  | .strLit s => s
  | .noneA => "None"
  | .ellipsisC => "<ast.Constant object>"
  | .other => "<object>"

/-- Behaviour of `translate_type` on a bare string input, extracted as a
helper so that `translate_type` is structurally recursive: the source's
`Dict` branch calls `translate_type(k)` on the id strings `k`, `v`, and on a
string only the `case ast.Name("int") | "int"`, `case ast.Name("str") |
"str"` and catch-all alternatives can fire.  `translate_type_strLit` below
proves this helper agrees with `translate_type` on `.strLit` inputs. -/
def translate_type_str (s : String) : Except String String :=
  if s = "int" then .ok "int"
  else if s = "str" then .ok "string"
  else .error ("unknown annotation: " ++ s)

/-- Embedding of `translate_type`.  The alternatives appear in source
order; the `Dict` branch's recursive calls on the id strings go through
`translate_type_str` (see its docstring). -/
def translate_type : TyObj → Except String String
  | .subscript (.name id) slice =>
    match id with
    | "List" => (translate_type slice).map (fun s => "[]" ++ s)
    | "Union" => .error "Union unsupported"
    | "Tuple" => .error "Tuple unsupported"
    | "Dict" =>
      match slice with
      | .tup [.name k, .name v] => do
        let key ← translate_type_str k
        let value ← translate_type_str v
        Except.ok ("map[" ++ key ++ "]" ++ value)
      | o => .error ("Bad dict: " ++ pyFormat o)
    | "Optional" => .error "Optional unsupported"
    | _ => .error ("Bad generic " ++ id)
  | .name "int" => .ok "int"
  | .strLit "int" => .ok "int"
  | .name "float" => .ok "float64"
  | .name "bool" => .ok "bool"
  | .name "str" => .ok "string"
  | .strLit "str" => .ok "string"
  | .noneA => .error "implicitly untyped argument"
  | .name "Any" => .ok "any"
  | .name x => .error ("unknown name " ++ x)
  | .ellipsisC => .error "no ellipsis!!"
  | t => .error ("unknown annotation: " ++ pyFormat t)

/-- Whether an `Except` computation raised. -/
def isErr {ε α : Type} : Except ε α → Bool
  | .error _ => true
  | .ok _ => false

/-! ## Prompt assembler -/

/-- An `ast.arg`: parameter name plus its annotation (`None` when the
parameter is untyped).  The source field name `annotation` is shortened to
`annot`. -/
structure PyArg where
  arg : String
  annot : TyObj

/-- The source's per-argument helper `translate_arg` inside
`translate_prompt`: `arg.arg + " " + translate_type(arg.annotation)`,
propagating the exception. -/
def translate_arg (a : PyArg) : Except String String :=
  match translate_type a.annot with
  | .ok t => .ok (a.arg ++ " " ++ t)
  | .error e => .error e

/-- Python list comprehension `[f(x) for x in xs]` under exception
propagation: left to right, first raise aborts. -/
def mapExcept {ε α β : Type} (f : α → Except ε β) : List α → Except ε (List β)
  | [] => .ok []
  | x :: xs =>
    match f x with
    | .error e => .error e
    | .ok y =>
      match mapExcept f xs with
      | .error e => .error e
      | .ok ys => .ok (y :: ys)

/-- Python whitespace (the `\s` class and `str.strip`'s default set). -/
def isPySpace (c : Char) : Bool :=
  c = ' ' ∨ c = '\t' ∨ c = '\n' ∨ c = '\r' ∨ c = '\x0b' ∨ c = '\x0c'

/-- Drop leading Python whitespace. -/
def dropPySpace : List Char → List Char
  | [] => []
  | c :: cs => if isPySpace c then dropPySpace cs else c :: cs

/-- Whether a character list starts with Python whitespace. -/
def headIsPySpace : List Char → Bool
  | [] => false
  | d :: _ => isPySpace d

/-- Python `description.strip()`. -/
def pyStrip (s : String) : String :=
  ⟨(dropPySpace (dropPySpace s.data.reverse).reverse)⟩

/-- One left-to-right pass of
`re.sub(re.compile("\n(\s+)"), "\n// ", ...)`: each newline followed by a
maximal nonempty whitespace run is replaced by `"\n// "`.  The boolean is
true while consuming the whitespace run of a match. -/
def docSub : Bool → List Char → List Char
  | _, [] => []
  | true, c :: cs =>
    if isPySpace c then docSub true cs else c :: docSub false cs
  | false, c :: cs =>
    if c = '\n' ∧ headIsPySpace cs then
      '\n' :: '/' :: '/' :: ' ' :: docSub true cs
    else c :: docSub false cs

/-- The docstring rewriting done by `translate_prompt` via
`DOCSTRING_LINESTART_RE`. -/
def docstringSub (s : String) : String := ⟨docSub false s.data⟩

/-- The `toplevel` f-string of `translate_prompt`: package header and
imports. -/
def toplevel (name : String) : String :=
  "package " ++ name ++ "_test\n\nimport (\n    \"testing\"\n    \"fmt\"\n)\n\n"

/-- Embedding of `GoTranslator.translate_prompt`: comment-izes the
docstring, translates every argument and the return annotation inside the
source's `try`, and returns `None` if any translation raises; otherwise
assembles the prompt text.  (The source also stores `self.type` and prints
the exception; neither is consulted elsewhere in the file.) -/
def translate_prompt (name : String) (args : List PyArg) (rets : TyObj)
    (description : String) : Option String :=
  let descr := "// " ++ docstringSub (pyStrip description) ++ "\n"
  match (do
      let argStrings ← mapExcept translate_arg args
      let retType ← translate_type rets
      Except.ok (argStrings, retType) : Except String (List String × String)) with
  | .error _ => Option.none
  | .ok (argStrings, retType) =>
    some (toplevel name ++ descr ++ "func " ++ name ++ "(" ++
      String.intercalate ", " argStrings ++ ") " ++ retType ++ " \x7b\n")

/-! ## Go interpreted string literals

A small reader for Go interpreted string literals (Go spec: a `"`-delimited
sequence of characters in which an unescaped `"` terminates the literal, a
backslash starts an escape, and a raw newline is illegal).  It is used to
state whether `gen_literal`'s output is a single well-formed Go string
literal and what string it denotes.  Multi-character escapes (`\x`, `\u`,
octal) are treated as unsupported: `gen_literal` never emits them, and the
claims only exercise inputs without backslashes. -/

/-- Single-character Go escape sequences and the characters they denote. -/
def escChar : Char → Option Char
  | 'a' => some (Char.ofNat 7)
  | 'b' => some (Char.ofNat 8)
  | 'f' => some (Char.ofNat 12)
  | 'n' => some '\n'
  | 'r' => some '\r'
  | 't' => some '\t'
  | 'v' => some (Char.ofNat 11)
  | '\\' => some '\\'
  | '"' => some '"'
  | _ => Option.none

/-- Reads the remainder of a Go interpreted string literal after the opening
quote, accumulating denoted characters; succeeds only when the closing quote
is the last character of the text. -/
def goUnquoteAux : List Char → List Char → Option String
  | _, [] => Option.none
  | acc, c :: cs =>
    if c = '"' then (if cs = [] then some ⟨acc.reverse⟩ else Option.none)
    else if c = '\\' then
      match cs with
      | [] => Option.none
      | e :: cs' =>
        match escChar e with
        | .some ec => goUnquoteAux (ec :: acc) cs'
        | .none => Option.none
    else if c = '\n' then Option.none
    else goUnquoteAux (c :: acc) cs

/-- Whether a text is exactly one well-formed Go interpreted string literal,
and if so which string it denotes. -/
def goUnquote (s : String) : Option String :=
  match s.data with
  | '"' :: rest => goUnquoteAux [] rest
  | _ => Option.none

/-! ## Claim-side type-descriptor grammars -/

/-- The descriptor grammar quantified over by the claim about `translate_type`
totality: annotations built from the mappable primitives (`int`, `float`,
`bool`, `str`, `Any`) and `List`/`Dict` applications, as they appear in
Python `ast` form (`Dict[K, V]` is `Subscript(Name "Dict", Tuple [K, V])`). -/
inductive MappableDesc : TyObj → Prop where
  | int : MappableDesc (.name "int")
  | float : MappableDesc (.name "float")
  | bool : MappableDesc (.name "bool")
  | str : MappableDesc (.name "str")
  | any : MappableDesc (.name "Any")
  | list {t : TyObj} : MappableDesc t → MappableDesc (.subscript (.name "List") t)
  | dict {k v : TyObj} : MappableDesc k → MappableDesc v →
      MappableDesc (.subscript (.name "Dict") (.tup [k, v]))

/-- The amended descriptor grammar on which `translate_type` is actually
total: mappable primitives and `List` nests as before, but `Dict` arguments
restricted to the bare names `int` and `str` (the only strings the
`Dict` branch's string-recursion accepts). -/
inductive MappableAmended : TyObj → Prop where
  | int : MappableAmended (.name "int")
  | float : MappableAmended (.name "float")
  | bool : MappableAmended (.name "bool")
  | str : MappableAmended (.name "str")
  | any : MappableAmended (.name "Any")
  | list {t : TyObj} : MappableAmended t →
      MappableAmended (.subscript (.name "List") t)
  | dict {k v : String} : (k = "int" ∨ k = "str") → (v = "int" ∨ v = "str") →
      MappableAmended (.subscript (.name "Dict") (.tup [.name k, .name v]))

/-! ## Helper lemmas -/

/-- The extracted helper `translate_type_str` agrees with `translate_type`
on bare-string inputs, so the `Dict` branch of the embedding computes
exactly the source's recursive calls `translate_type(k)`,
`translate_type(v)`. -/
theorem translate_type_strLit (s : String) :
    translate_type (.strLit s) = translate_type_str s := by
  by_cases h1 : s = "int"
  · subst h1; rfl
  · by_cases h2 : s = "str"
    · subst h2; rfl
    · rw [translate_type.eq_def]
      split <;> simp_all [translate_type_str, pyFormat]

/-- A `gen_list` call on a state whose `prev_comp_types` is already
populated leaves `prev_comp_types` unchanged. -/
theorem gen_list_prev_of_ne_nil (l : List String) (st : TState)
    (h : st.prev_comp_types ≠ []) :
    (gen_list l st).2.prev_comp_types = st.prev_comp_types := by
  obtain ⟨prev, diags, flag⟩ := st
  cases prev with
  | nil => exact absurd rfl h
  | cons p ps =>
    cases l with
    | nil => simp [gen_list]
    | cons x xs => simp [gen_list]

/-- A `gen_dict` call on a state whose `prev_comp_types` already has two
entries leaves `prev_comp_types` unchanged. -/
theorem gen_dict_prev_of_two (ks vs : List String) (st : TState)
    (h : 2 ≤ st.prev_comp_types.length) :
    (gen_dict ks vs st).2.prev_comp_types = st.prev_comp_types := by
  obtain ⟨prev, diags, flag⟩ := st
  match prev, h with
  | a :: b :: rest, _ =>
    have hlt : ¬ (rest.length + 1 + 1 < 2) := by omega
    cases ks with
    | nil => simp [gen_dict, hlt]
    | cons k ks' =>
      cases vs with
      | nil => simp [gen_dict, hlt]
      | cons v vs' => simp [gen_dict, hlt]

/-- A `gen_dict` call keeps `prev_comp_types` nonempty with head
`"string"`, whenever it was so before: a two-entry state is untouched, and
a shorter state is replaced by a pair whose key type is `"string"` (the
computed key type of a nonempty dict of rendered fragments, or the default
of an empty one). -/
theorem gen_dict_prev_head (ks vs : List String) (st : TState)
    (h0 : st.prev_comp_types ≠ []) (h1 : st.prev_comp_types.getD 0 "" = "string") :
    (gen_dict ks vs st).2.prev_comp_types ≠ [] ∧
    (gen_dict ks vs st).2.prev_comp_types.getD 0 "" = "string" := by
  obtain ⟨prev, diags, flag⟩ := st
  match prev, h0, h1 with
  | [p], _, h1 =>
    cases ks with
    | nil => simp [gen_dict]
    | cons k ks' =>
      cases vs with
      | nil => simp [gen_dict]
      | cons v vs' => simp [gen_dict, pytype_to_gotype, typeOfStr]
  | a :: b :: rest, _, h1 =>
    have h2 : 2 ≤ (TState.mk (a :: b :: rest) diags flag).prev_comp_types.length := by
      simp
    rw [gen_dict_prev_of_two ks vs _ h2]
    exact ⟨by simp, h1⟩

/-- Running any trace preserves "nonempty `prev_comp_types` with head
`"string"`". -/
theorem runOps_prev_head (ops : List LitOp) : ∀ st : TState,
    st.prev_comp_types ≠ [] → st.prev_comp_types.getD 0 "" = "string" →
    (runOps ops st).2.prev_comp_types ≠ [] ∧
    (runOps ops st).2.prev_comp_types.getD 0 "" = "string" := by
  induction ops with
  | nil => intro st h0 h1; exact ⟨h0, h1⟩
  | cons op ops ih =>
    intro st h0 h1
    cases op with
    | lst l =>
      have hp := gen_list_prev_of_ne_nil l st h0
      have h0' : (gen_list l st).2.prev_comp_types ≠ [] := by rw [hp]; exact h0
      have h1' : (gen_list l st).2.prev_comp_types.getD 0 "" = "string" := by
        rw [hp]; exact h1
      simpa [runOps, runOp] using ih (gen_list l st).2 h0' h1'
    | dct ks vs =>
      obtain ⟨h0', h1'⟩ := gen_dict_prev_head ks vs st h0 h1
      simpa [runOps, runOp] using ih (gen_dict ks vs st).2 h0' h1'

/-- Running any trace on a state whose `prev_comp_types` already has two
entries leaves `prev_comp_types` unchanged. -/
theorem runOps_prev_of_two (ops : List LitOp) : ∀ st : TState,
    2 ≤ st.prev_comp_types.length →
    (runOps ops st).2.prev_comp_types = st.prev_comp_types := by
  induction ops with
  | nil => intro st _; rfl
  | cons op ops ih =>
    intro st h
    cases op with
    | lst l =>
      have hne : st.prev_comp_types ≠ [] := by
        intro hnil; rw [hnil] at h; simp at h
      have hp := gen_list_prev_of_ne_nil l st hne
      have h' : 2 ≤ (gen_list l st).2.prev_comp_types.length := by rw [hp]; exact h
      calc (runOps (LitOp.lst l :: ops) st).2.prev_comp_types
          = (runOps ops (gen_list l st).2).2.prev_comp_types := by simp [runOps, runOp]
        _ = (gen_list l st).2.prev_comp_types := ih _ h'
        _ = st.prev_comp_types := hp
    | dct ks vs =>
      have hp := gen_dict_prev_of_two ks vs st h
      have h' : 2 ≤ (gen_dict ks vs st).2.prev_comp_types.length := by rw [hp]; exact h
      calc (runOps (LitOp.dct ks vs :: ops) st).2.prev_comp_types
          = (runOps ops (gen_dict ks vs st).2).2.prev_comp_types := by simp [runOps, runOp]
        _ = (gen_dict ks vs st).2.prev_comp_types := ih _ h'
        _ = st.prev_comp_types := hp

/-- Rendering of an empty list literal against a populated state. -/
theorem gen_list_empty_render (st : TState) (h : st.prev_comp_types ≠ []) :
    (gen_list [] st).1 = "[]" ++ st.prev_comp_types.getD 0 "" ++ "\x7b\x7d" := by
  obtain ⟨prev, diags, flag⟩ := st
  cases prev with
  | nil => exact absurd rfl h
  | cons p ps => simp [gen_list, String.append_assoc, String.intercalate]

/-- Rendering and diagnostic of an empty list literal against an
unpopulated state. -/
theorem gen_list_empty_default (st : TState) (h : st.prev_comp_types = []) :
    (gen_list [] st).1 = "[]int\x7b\x7d" ∧
    (gen_list [] st).2.diagnostics = st.diagnostics ++ ["bad list, empty"] := by
  obtain ⟨prev, diags, flag⟩ := st
  cases h
  simp [gen_list, String.append_assoc, String.intercalate]

/-- Rendering of a nonempty list literal: the element type is always the
mapping of `str` (the runtime type of the rendered first fragment), namely
`"string"`. -/
theorem gen_list_nonempty_render (l : List String) (hl : l ≠ []) (st : TState) :
    (gen_list l st).1 = "[]string" ++ "\x7b" ++ String.intercalate ", " l ++ "\x7d" := by
  cases l with
  | nil => exact absurd rfl hl
  | cons x xs => simp [gen_list, pytype_to_gotype, typeOfStr]

/-- A nonempty list literal translated against a fresh state records
`["string"]`. -/
theorem gen_list_nonempty_prev_nil (l : List String) (hl : l ≠ []) (st : TState)
    (h : st.prev_comp_types = []) :
    (gen_list l st).2.prev_comp_types = ["string"] := by
  obtain ⟨prev, diags, flag⟩ := st
  cases h
  cases l with
  | nil => exact absurd rfl hl
  | cons x xs => simp [gen_list, pytype_to_gotype, typeOfStr]

/-- A nonempty dict literal translated against a fresh state records
`["string", "string"]`. -/
theorem gen_dict_nonempty_prev_nil (ks vs : List String) (hk : ks ≠ [])
    (hv : vs ≠ []) (st : TState) (h : st.prev_comp_types = []) :
    (gen_dict ks vs st).2.prev_comp_types = ["string", "string"] := by
  obtain ⟨prev, diags, flag⟩ := st
  cases h
  cases ks with
  | nil => exact absurd rfl hk
  | cons k ks' =>
    cases vs with
    | nil => exact absurd rfl hv
    | cons v vs' => simp [gen_dict, pytype_to_gotype, typeOfStr]

/-- Rendering of an empty dict literal against a two-entry state. -/
theorem gen_dict_empty_render_two (st : TState)
    (h : 2 ≤ st.prev_comp_types.length) :
    (gen_dict [] [] st).1 =
      "map[" ++ st.prev_comp_types.getD 0 "" ++ "]" ++
        st.prev_comp_types.getD 1 "" ++ "\x7b\x7d" := by
  obtain ⟨prev, diags, flag⟩ := st
  match prev, h with
  | a :: b :: rest, _ => simp [gen_dict, String.append_assoc, String.intercalate]

/-- If some element of the list makes `f` raise, the exception-propagating
comprehension raises. -/
theorem mapExcept_isErr {ε α β : Type} (f : α → Except ε β) (xs : List α)
    (h : ∃ a ∈ xs, isErr (f a) = true) : isErr (mapExcept f xs) = true := by
  induction xs with
  | nil => rcases h with ⟨a, ha, _⟩; cases ha
  | cons x xs ih =>
    rcases h with ⟨a, ha, hae⟩
    rcases List.mem_cons.mp ha with rfl | hmem
    · unfold mapExcept
      cases hfa : f a
      · simp [isErr]
      · rw [hfa] at hae; simp [isErr] at hae
    · unfold mapExcept
      cases hfx : f x
      · simp [isErr]
      · have htl := ih ⟨a, hmem, hae⟩
        cases hm : mapExcept f xs
        · simp [isErr]
        · rw [hm] at htl; simp [isErr] at htl

/-- Reading a quote-terminated tail of special-character-free characters
succeeds and denotes those characters. -/
theorem goUnquoteAux_clean (cs : List Char) : ∀ acc : List Char,
    (∀ c ∈ cs, c ≠ '"' ∧ c ≠ '\\' ∧ c ≠ '\n') →
    goUnquoteAux acc (cs ++ ['"']) = some (String.mk (acc.reverse ++ cs)) := by
  induction cs with
  | nil => intro acc _; simp [goUnquoteAux]
  | cons c cs ih =>
    intro acc h
    obtain ⟨hq, hb, hn⟩ := h c (List.mem_cons_self c cs)
    have hstep : goUnquoteAux acc ((c :: cs) ++ ['"'])
        = goUnquoteAux (c :: acc) (cs ++ ['"']) := by
      rw [List.cons_append, goUnquoteAux.eq_def]
      split
      · simp_all
      · rename_i acc2 c2 cs2 heq
        injection heq with h1 h2
        subst h1; subst h2
        rw [if_neg hq, if_neg hb, if_neg hn]
    rw [hstep, ih (c :: acc) (fun d hd => h d (List.mem_cons_of_mem _ hd))]
    simp

/-! ## Claim theorems -/

/-- C1: the claim states that for every non-empty List (symmetrically Dict)
literal the rendered type prefix is derived from the first element's
literal type via the fixed value-to-type map (int to "int", bool to
"bool", str to "string", float to "float64", List[int] to "[]int").  On
the code this fails: `gen_list`/`gen_dict` receive the already-rendered
`str` fragments of their elements (parameter annotation `List[str]`, and
`", ".join` requires `str`s), so `type(l[0])` is always the class `str`
and the prefix is always `"string"`.  Evaluating at the claim's own
inputs: the list literal `[1, 2, 3]`, whose rendered fragments are
`gen_literal` of each int, renders as `[]string{1, 2, 3}` rather than
`[]int{1, 2, 3}`, and the dict literal with pair `"a": 1` renders as
`map[string]string{...}` rather than `map[string]int{...}`; the final
conjunct records the mapping the claim expected for the first element's
actual type `int`. -/
theorem C1_first_element_type_eval :
    (gen_list [gen_literal (PyScalar.int 1), gen_literal (PyScalar.int 2),
        gen_literal (PyScalar.int 3)] initState).1 = "[]string\x7b1, 2, 3\x7d"
    ∧ (gen_dict [gen_literal (PyScalar.str "a")] [gen_literal (PyScalar.int 1)]
        initState).1 = "map[string]string\x7b\"a\": 1\x7d"
    ∧ pytype_to_gotype (PyTypeObj.cls PyClass.int) = "int" := by
  exact ⟨by decide, by decide, by decide⟩

/-- C2: the claim states `gen_literal None = "nil"`.  On the code, the
branch guard `type(c) == None` compares the class `NoneType` with the
object `None` and is never true (second conjunct: `type(c)` is always a
class), so `gen_literal None` falls through to `repr(None)` and returns
`"None"` (first conjunct), never reaching the `return "nil"` the source
intended. -/
theorem C2_none_literal :
    gen_literal PyScalar.none = "None"
    ∧ ∀ c : PyScalar, type_ c ≠ PyTypeObj.noneObj := by
  refine ⟨rfl, ?_⟩
  intro c; cases c <;> simp [type_]

/-- C3 counterexample: in the problem trace "empty list, non-empty list of
fragments ["1", "2"], empty list", the final empty list literal occurs
after a non-empty list literal of the same shape, yet it renders as
`[]int{}` while the non-empty literal's inferred element type was
`"string"` (visible in its rendering `[]string{1, 2}`): the leading empty
literal had already populated the state with the default `"int"`, which is
never overwritten, so the claimed carry-forward equality fails as
stated. -/
theorem C3_carry_forward_counterexample :
    (runOps [LitOp.lst [], LitOp.lst ["1", "2"], LitOp.lst []] initState).1
      = ["[]int\x7b\x7d", "[]string\x7b1, 2\x7d", "[]int\x7b\x7d"]
    ∧ "[]int\x7b\x7d" ≠ "[]string\x7b\x7d" := by
  exact ⟨by decide, by decide⟩

/-- C3 (amended): an empty List renders `prev_comp_types[0]` when that
state is populated, and otherwise the default `"int"` together with the
"bad list, empty" diagnostic; and the carry-forward consequence holds
provided the earlier non-empty literal is the problem's first List/Dict
literal: a non-empty list (resp. dict) translated first from the fresh
state fixes element type `"string"` (resp. key/value types `"string"`,
`"string"`), and a later empty literal of the same shape, after arbitrary
intervening literal translations, renders with exactly that inferred
type. -/
theorem C3_carry_forward_amended :
    (∀ st : TState, st.prev_comp_types ≠ [] →
      (gen_list [] st).1 = "[]" ++ st.prev_comp_types.getD 0 "" ++ "\x7b\x7d")
    ∧ (∀ st : TState, st.prev_comp_types = [] →
      (gen_list [] st).1 = "[]int\x7b\x7d" ∧
      (gen_list [] st).2.diagnostics = st.diagnostics ++ ["bad list, empty"])
    ∧ (∀ l : List String, l ≠ [] → ∀ ops : List LitOp,
      (gen_list l initState).1
        = "[]string" ++ "\x7b" ++ String.intercalate ", " l ++ "\x7d" ∧
      (gen_list [] (runOps ops (gen_list l initState).2).2).1 = "[]string\x7b\x7d")
    ∧ (∀ ks vs : List String, ks ≠ [] → vs ≠ [] → ∀ ops : List LitOp,
      (gen_dict [] [] (runOps ops (gen_dict ks vs initState).2).2).1
        = "map[string]string\x7b\x7d") := by
  refine ⟨gen_list_empty_render, gen_list_empty_default, ?_, ?_⟩
  · intro l hl ops
    refine ⟨gen_list_nonempty_render l hl initState, ?_⟩
    have h1 := gen_list_nonempty_prev_nil l hl initState rfl
    have h2 := runOps_prev_head ops (gen_list l initState).2
      (by rw [h1]; simp) (by rw [h1]; rfl)
    have h3 := gen_list_empty_render _ h2.1
    rw [h3, h2.2]
    decide
  · intro ks vs hk hv ops
    have h1 := gen_dict_nonempty_prev_nil ks vs hk hv initState rfl
    have h2 := runOps_prev_of_two ops (gen_dict ks vs initState).2 (by rw [h1]; simp)
    rw [h1] at h2
    have h3 := gen_dict_empty_render_two (runOps ops (gen_dict ks vs initState).2).2
      (by rw [h2]; simp)
    rw [h3, h2]
    decide

/-- Witness for the amended C3 theorem: concrete instances of all four
conjuncts. -/
theorem C3_carry_forward_amended_witness :
    (gen_list [] (⟨["float64"], [], false⟩ : TState)).1 = "[]float64\x7b\x7d"
    ∧ (gen_list [] initState).1 = "[]int\x7b\x7d"
    ∧ (gen_list [] (runOps [LitOp.dct ["\"k\""] ["7"]]
        (gen_list ["1"] initState).2).2).1 = "[]string\x7b\x7d"
    ∧ (gen_dict [] [] (runOps [] (gen_dict ["\"k\""] ["7"] initState).2).2).1
        = "map[string]string\x7b\x7d" := by
  refine ⟨?_, ?_, ?_, ?_⟩
  · have h := C3_carry_forward_amended.1 (⟨["float64"], [], false⟩ : TState) (by decide)
    simpa using h
  · exact (C3_carry_forward_amended.2.1 initState rfl).1
  · exact (C3_carry_forward_amended.2.2.1 ["1"] (by decide)
      [LitOp.dct ["\"k\""] ["7"]]).2
  · exact C3_carry_forward_amended.2.2.2 ["\"k\""] ["7"] (by decide) (by decide) []

/-- C4 counterexample: the first literal of the problem, a non-empty list,
records `["string"]`; the very next translated literal, a dict, replaces
that recorded state (with `["string", "int"]`), so "the already-recorded
state is never overwritten by subsequent gen_list or gen_dict calls" fails
as stated. -/
theorem C4_overwrite_counterexample :
    (gen_list ["1"] initState).2.prev_comp_types = ["string"]
    ∧ (gen_dict [] [] (gen_list ["1"] initState).2).2.prev_comp_types
        ≠ (gen_list ["1"] initState).2.prev_comp_types := by
  exact ⟨by decide, by decide⟩

/-- C4 (amended): `gen_list` never modifies a populated state, and
`gen_dict` never modifies a state holding at least two entries — once two
entries are recorded no trace modifies them — but a `gen_dict` call finding
a single-entry state (as recorded by a first List literal) does replace it
with a two-entry record. -/
theorem C4_overwrite_amended :
    (∀ (l : List String) (st : TState), st.prev_comp_types ≠ [] →
      (gen_list l st).2.prev_comp_types = st.prev_comp_types)
    ∧ (∀ (ks vs : List String) (st : TState), 2 ≤ st.prev_comp_types.length →
      (gen_dict ks vs st).2.prev_comp_types = st.prev_comp_types)
    ∧ (∀ (ks vs : List String) (t : String) (st : TState),
      st.prev_comp_types = [t] →
      ∃ kt vt : String, (gen_dict ks vs st).2.prev_comp_types = [kt, vt])
    ∧ (∀ (ops : List LitOp) (st : TState), 2 ≤ st.prev_comp_types.length →
      (runOps ops st).2.prev_comp_types = st.prev_comp_types) := by
  refine ⟨gen_list_prev_of_ne_nil, gen_dict_prev_of_two, ?_, runOps_prev_of_two⟩
  intro ks vs t st h
  obtain ⟨prev, diags, flag⟩ := st
  cases h
  cases ks with
  | nil => exact ⟨"string", "int", by simp [gen_dict]⟩
  | cons k ks' =>
    cases vs with
    | nil => exact ⟨"string", "int", by simp [gen_dict]⟩
    | cons v vs' =>
      exact ⟨"string", "string", by simp [gen_dict, pytype_to_gotype, typeOfStr]⟩

/-- Witness for the amended C4 theorem: concrete instances of all four
conjuncts. -/
theorem C4_overwrite_amended_witness :
    (gen_list ["x"] (⟨["int"], [], false⟩ : TState)).2.prev_comp_types = ["int"]
    ∧ (gen_dict ["\"a\""] ["1"]
        (⟨["int", "bool"], [], false⟩ : TState)).2.prev_comp_types = ["int", "bool"]
    ∧ (∃ kt vt : String,
        (gen_dict [] [] (⟨["int"], [], false⟩ : TState)).2.prev_comp_types = [kt, vt])
    ∧ (runOps [LitOp.lst []]
        (⟨["a", "b"], [], false⟩ : TState)).2.prev_comp_types = ["a", "b"] := by
  exact ⟨C4_overwrite_amended.1 ["x"] _ (by decide),
    C4_overwrite_amended.2.1 ["\"a\""] ["1"] _ (by decide),
    C4_overwrite_amended.2.2.1 [] [] "int" _ rfl,
    C4_overwrite_amended.2.2.2 [LitOp.lst []] _ (by decide)⟩

/-- C5 counterexample: for the input string containing a double quote, the
output of `gen_literal` is the input wrapped in quotes with no escaping,
which is not a single well-formed Go interpreted string literal (the
embedded quote terminates the literal early), refuting "escaping
target-specific special characters, so that the returned text is always a
well-formed target-language string literal". -/
theorem C5_escaping_counterexample :
    gen_literal (PyScalar.str "say \"hi\"") = "\"say \"hi\"\""
    ∧ goUnquote (gen_literal (PyScalar.str "say \"hi\"")) = Option.none := by
  exact ⟨by decide, by decide⟩

/-- C5 (amended): `gen_literal` wraps a `str` input in double quotes
verbatim, performing no escaping; consequently the returned text is a
well-formed Go string literal denoting the input only for inputs free of
double quotes, backslashes and newlines, for which it is indeed well formed
and denotes the input. -/
theorem C5_escaping_amended : ∀ s : String,
    (∀ c ∈ s.data, c ≠ '"' ∧ c ≠ '\\' ∧ c ≠ '\n') →
    gen_literal (PyScalar.str s) = "\"" ++ s ++ "\""
    ∧ goUnquote (gen_literal (PyScalar.str s)) = some s := by
  intro s h
  obtain ⟨sd⟩ := s
  have hg : gen_literal (PyScalar.str ⟨sd⟩) = "\"" ++ (⟨sd⟩ : String) ++ "\"" := by
    simp [gen_literal, type_, pyStr]
  refine ⟨hg, ?_⟩
  rw [hg]
  show goUnquoteAux [] (sd ++ ['"']) = some ⟨sd⟩
  rw [goUnquoteAux_clean sd [] h]
  simp

/-- Witness for the amended C5 theorem at a quote-free input. -/
theorem C5_escaping_amended_witness :
    gen_literal (PyScalar.str "abc") = "\"abc\""
    ∧ goUnquote (gen_literal (PyScalar.str "abc")) = some "abc" := by
  have h := C5_escaping_amended "abc" (by decide)
  simpa using h

/-- C6 counterexample: `Dict[bool, int]` is a descriptor built from
mappable primitives and `Dict`, yet `translate_type` raises on it: the
`Dict` branch recurses on the bare id strings of the slice, and on the
string "bool" only the catch-all alternative fires.  This refutes "total
over every type descriptor built from mappable primitives, List, and Dict,
never raising on such inputs". -/
theorem C6_total_counterexample :
    MappableDesc (.subscript (.name "Dict") (.tup [.name "bool", .name "int"]))
    ∧ translate_type (.subscript (.name "Dict") (.tup [.name "bool", .name "int"]))
        = .error "unknown annotation: bool" := by
  exact ⟨MappableDesc.dict MappableDesc.bool MappableDesc.int, rfl⟩

/-- C6 (amended): `translate_type` is total (and, being a function,
deterministic) over descriptors built from the mappable primitives and
`List`, with the claimed equations; `Dict` descriptors are supported only
when both the key and the value are the bare names `int` or `str`, in which
case the `map[...]...` equation holds with the string-recursion's results
(int to "int", str to "string").  For any other `Dict` arguments
`translate_type` raises. -/
theorem C6_total_amended :
    (∀ t : TyObj, MappableAmended t → isErr (translate_type t) = false)
    ∧ translate_type (.name "int") = .ok "int"
    ∧ translate_type (.name "float") = .ok "float64"
    ∧ translate_type (.name "bool") = .ok "bool"
    ∧ translate_type (.name "str") = .ok "string"
    ∧ translate_type (.name "Any") = .ok "any"
    ∧ (∀ (t : TyObj) (s : String), translate_type t = .ok s →
      translate_type (.subscript (.name "List") t) = .ok ("[]" ++ s))
    ∧ (∀ k v ks vs : String, translate_type_str k = .ok ks →
      translate_type_str v = .ok vs →
      translate_type (.subscript (.name "Dict") (.tup [.name k, .name v]))
        = .ok ("map[" ++ ks ++ "]" ++ vs)) := by
  refine ⟨?_, rfl, rfl, rfl, rfl, rfl, ?_, ?_⟩
  · intro t hm
    induction hm with
    | int => rfl
    | float => rfl
    | bool => rfl
    | str => rfl
    | any => rfl
    | list hm ih =>
      rename_i t'
      cases ht : translate_type t' with
      | ok s =>
        show isErr ((translate_type t').map (fun s => "[]" ++ s)) = false
        rw [ht]; rfl
      | error e => rw [ht] at ih; simp [isErr] at ih
    | dict hk hv =>
      rcases hk with rfl | rfl <;> rcases hv with rfl | rfl <;> rfl
  · intro t s h
    show (translate_type t).map (fun s => "[]" ++ s) = Except.ok ("[]" ++ s)
    rw [h]; rfl
  · intro k v ks vs hk hv
    show (translate_type_str k).bind
        (fun key => (translate_type_str v).bind
          (fun value => Except.ok ("map[" ++ key ++ "]" ++ value)))
      = Except.ok ("map[" ++ ks ++ "]" ++ vs)
    rw [hk, hv]
    rfl

/-- Witness for the amended C6 theorem: the hypothesis-bearing conjuncts
applied at concrete descriptors. -/
theorem C6_total_amended_witness :
    isErr (translate_type (.subscript (.name "List") (.name "int"))) = false
    ∧ translate_type (.subscript (.name "List") (.name "float")) = .ok "[]float64"
    ∧ translate_type (.subscript (.name "Dict") (.tup [.name "str", .name "int"]))
        = .ok "map[string]int" := by
  refine ⟨C6_total_amended.1 _ (MappableAmended.list MappableAmended.int), ?_, ?_⟩
  · have h := C6_total_amended.2.2.2.2.2.2.1 (.name "float") "float64" rfl
    simpa using h
  · have h := C6_total_amended.2.2.2.2.2.2.2 "str" "int" "string" "int" rfl rfl
    simpa using h

/-- C7: for every `Union[...]`, `Tuple[...]` and `Optional[...]`
annotation, `translate_type` raises a descriptive error naming the
unsupported kind, and for the missing (None) annotation it raises
"implicitly untyped argument"; in each case the result is an error, never a
type string. -/
theorem C7_unsupported_missing :
    (∀ slice : TyObj, translate_type (.subscript (.name "Union") slice)
      = .error "Union unsupported")
    ∧ (∀ slice : TyObj, translate_type (.subscript (.name "Tuple") slice)
      = .error "Tuple unsupported")
    ∧ (∀ slice : TyObj, translate_type (.subscript (.name "Optional") slice)
      = .error "Optional unsupported")
    ∧ translate_type .noneA = .error "implicitly untyped argument" := by
  exact ⟨fun _ => rfl, fun _ => rfl, fun _ => rfl, rfl⟩

/-- C8: whenever the type mapper raises on some parameter annotation or on
the return annotation, `translate_prompt` returns `None`: no prompt text is
produced. -/
theorem C8_abort_on_type_failure :
    ∀ (name : String) (args : List PyArg) (rets : TyObj) (description : String),
    ((∃ a ∈ args, isErr (translate_type a.annot) = true)
      ∨ isErr (translate_type rets) = true) →
    translate_prompt name args rets description = Option.none := by
  intro name args rets description h
  unfold translate_prompt
  rcases h with ⟨a, ha, hae⟩ | hr
  · have hm : isErr (mapExcept translate_arg args) = true := by
      apply mapExcept_isErr
      refine ⟨a, ha, ?_⟩
      unfold translate_arg
      cases hta : translate_type a.annot with
      | ok t => rw [hta] at hae; simp [isErr] at hae
      | error e => simp [isErr]
    cases hmm : mapExcept translate_arg args with
    | error e => simp [hmm, bind, Except.bind]
    | ok l => rw [hmm] at hm; simp [isErr] at hm
  · cases hmm : mapExcept translate_arg args with
    | error e => simp [hmm, bind, Except.bind]
    | ok l =>
      cases hr2 : translate_type rets with
      | ok t => rw [hr2] at hr; simp [isErr] at hr
      | error e => simp [hmm, hr2, bind, Except.bind]

/-- Witness for C8: a parameter with a missing annotation makes
`translate_prompt` return `None`. -/
theorem C8_abort_witness :
    translate_prompt "f" [⟨"x", TyObj.noneA⟩] (.name "int") "doc"
      = Option.none := by
  apply C8_abort_on_type_failure
  exact Or.inl ⟨⟨"x", TyObj.noneA⟩, by simp, rfl⟩

/-- C9: `pytype_to_gotype` maps every type object outside the five-entry
map (the classes int, bool, str, float, and the alias List[int]) to the
placeholder `"UNKNOWN"`; being a total function it never raises. -/
theorem C9_unknown_fallthrough : ∀ t : PyTypeObj,
    t ≠ .cls .int → t ≠ .cls .bool → t ≠ .cls .str → t ≠ .cls .float →
    t ≠ .listInt → pytype_to_gotype t = "UNKNOWN" := by
  intro t h1 h2 h3 h4 h5
  simp [pytype_to_gotype, h1, h2, h3, h4, h5]

/-- Witness for C9 at the class `list` (the runtime type of a Python list,
which the map does not contain). -/
theorem C9_unknown_fallthrough_witness :
    pytype_to_gotype (PyTypeObj.cls PyClass.list) = "UNKNOWN" :=
  C9_unknown_fallthrough _ (by decide) (by decide) (by decide) (by decide)
    (by decide)

/-- C10: the carry-forward state does not distinguish collection shapes.
With a two-entry state (as populated by a Dict), an empty List renders
with the stored key type as its element type and leaves the state intact;
with a single-entry state (as populated by a List), an empty Dict ignores
the hint, renders with the defaults `map[string]int`, emits the "bad dict,
empty" diagnostic, and replaces the stored state with
`["string", "int"]`. -/
theorem C10_shape_confusion :
    (∀ (kt vt : String) (rest : List String) (st : TState),
      st.prev_comp_types = kt :: vt :: rest →
      (gen_list [] st).1 = "[]" ++ kt ++ "\x7b\x7d" ∧ (gen_list [] st).2 = st)
    ∧ (∀ (t : String) (st : TState), st.prev_comp_types = [t] →
      (gen_dict [] [] st).1 = "map[string]int\x7b\x7d"
      ∧ (gen_dict [] [] st).2.prev_comp_types = ["string", "int"]
      ∧ (gen_dict [] [] st).2.diagnostics
          = st.diagnostics ++ ["bad dict, empty"]) := by
  constructor
  · intro kt vt rest st h
    obtain ⟨prev, diags, flag⟩ := st
    cases h
    refine ⟨?_, ?_⟩ <;> simp [gen_list, String.append_assoc, String.intercalate]
  · intro t st h
    obtain ⟨prev, diags, flag⟩ := st
    cases h
    refine ⟨?_, ?_, ?_⟩ <;>
      simp [gen_dict, String.append_assoc, String.intercalate]

/-- Witness for C10: an empty list against a dict-populated state, and an
empty dict against a list-populated state. -/
theorem C10_shape_confusion_witness :
    (gen_list [] (⟨["k", "v"], [], false⟩ : TState)).1 = "[]k\x7b\x7d"
    ∧ (gen_dict [] [] (⟨["e"], ["d"], true⟩ : TState)).1
        = "map[string]int\x7b\x7d" := by
  refine ⟨?_, ?_⟩
  · have h := (C10_shape_confusion.1 "k" "v" []
      (⟨["k", "v"], [], false⟩ : TState) rfl).1
    simpa using h
  · exact (C10_shape_confusion.2 "e" (⟨["e"], ["d"], true⟩ : TState) rfl).1

end HumanEvalGo
